import Mathlib

/-!
# Verification of the MES workflow decision-gated task graph resolver

Shallow embedding of the core logic of `src/index.ts` (mes-workflow-mcp-server):
the inclusion filter (`shouldIncludeTask`), the ancestor resolver
(`findClosestIncludedAncestor`), the loop pairer (`findLoopStart`,
`findLoopBodyStart`), the diagram compiler (`generateMermaidDiagram`), the
`save_client_decision` tool handler, and the `validate_workflow` tool handler.

Conventions of the embedding:
* TypeScript `string | null` fields become `Option String`; plain `string`
  fields become `String`.  JavaScript truthiness tests on strings
  (`if (!s) ...`) are translated as emptiness tests, with `null` handled by
  the `Option` layer.
* JavaScript objects used as string-keyed maps become association lists
  (`List (String × _)`); property lookup is `find?` on the key, property
  assignment replaces the first matching entry in place or appends,
  mirroring JS object key-ordering semantics.
* A JavaScript `Set` of strings becomes a `List String` queried with
  `contains`.
* The nondeterministic timestamp `new Date().toISOString()` is passed in as
  an explicit argument.
* The `while` loop of the BFS in `findClosestIncludedAncestor` is embedded
  as a fuel-indexed step function `bfsRun`; `none` means the fuel ran out
  (which is proved never to happen for the fuel bound actually used).
-/

namespace MesWorkflow

/-- The `Task` interface of `src/index.ts` (lines 32–51). -/
structure Task where
  id : String
  parent_id : Option String
  name : String
  type : String
  stage : String
  actor : String
  integration : String
  inputs : String
  outputs : String
  predecessors : List String
  edge_type : String
  guard_condition : String
  decision_id : Option String
  decision_outcome : Option String
  loop_key : String
  loop_exit_condition : String
  logs : String
  controls : String
deriving DecidableEq, Repr

/-- The `Decision` interface of `src/index.ts` (lines 22–30). -/
structure Decision where
  id : String
  category : String
  question : String
  outcomes : List String
  stage : String
  affects : String
  notes : String
deriving DecidableEq, Repr

/-- The `ClientDecision` interface of `src/index.ts` (lines 53–57). -/
structure ClientDecision where
  selected_outcome : String
  rationale : String
  timestamp : String
deriving DecidableEq, Repr

/-- A per-client answer map `{ [decisionId: string]: ClientDecision }`,
embedded as an association list. -/
abbrev AnswerMap : Type := List (String × ClientDecision)

/-- The whole `ClientDecisions` store `{ [clientName: string]: {...} }`. -/
abbrev ClientStore : Type := List (String × AnswerMap)

/-- JS `String.prototype.trim`: strip leading and trailing whitespace. -/
def jsTrim (s : String) : String :=
  String.mk
    (((s.data.dropWhile Char.isWhitespace).reverse.dropWhile
        Char.isWhitespace).reverse)

/-- Worker for `jsSplit`, accumulating the current segment reversed. -/
def jsSplitAux (sep : Char) : List Char → List Char → List String
  | [], cur => [String.mk cur.reverse]
  | c :: cs, cur =>
    if c == sep then String.mk cur.reverse :: jsSplitAux sep cs []
    else jsSplitAux sep cs (c :: cur)

/-- JS `String.prototype.split` with a one-character separator. -/
def jsSplit (sep : Char) (s : String) : List String :=
  jsSplitAux sep s.data []

/-- JS `String.prototype.startsWith`. -/
def jsStartsWith (s pre : String) : Bool :=
  pre.data.isPrefixOf s.data

/-- JS `String.prototype.includes` with a one-character needle. -/
def jsIncludesChar (s : String) (c : Char) : Bool :=
  s.data.contains c

/-- JS object property read `m[k]` on a string-keyed map. -/
def lookupEntry {α : Type} (m : List (String × α)) (k : String) : Option α :=
  (m.find? (fun kv => kv.1 == k)).map (·.2)

/-- JS object property write `m[k] = v`: overwrite the first entry with key
`k` in place, or append a fresh entry. -/
def setEntry {α : Type} (m : List (String × α)) (k : String) (v : α) :
    List (String × α) :=
  match m with
  | [] => [(k, v)]
  | (k', v') :: rest =>
    if k' == k then (k, v) :: rest else (k', v') :: setEntry rest k v

/-- `decisions[did]?.selected_outcome` access used by the inclusion filter. -/
def lookupAnswer (answers : AnswerMap) (did : String) : Option ClientDecision :=
  lookupEntry answers did

/-- `shouldIncludeTask` (src/index.ts lines 147–172).

```ts
if (!task.decision_id) return true;
if (task.decision_id.startsWith('C-')) return true;
const clientChoice = decisions[task.decision_id]?.selected_outcome;
if (!clientChoice) return false;
if (task.decision_outcome && task.decision_outcome.includes(',')) {
  const validOutcomes = task.decision_outcome.split(',').map((o) => o.trim());
  return validOutcomes.includes(clientChoice);
}
return clientChoice === task.decision_outcome;
```
The JS falsiness tests on `task.decision_id` and `clientChoice` are the
`Option` match plus an empty-string test. -/
def shouldIncludeTask (task : Task) (decisions : AnswerMap) : Bool :=
  match task.decision_id with
  | none => true
  | some did =>
    if did == "" then true
    else if jsStartsWith did "C-" then true
    else
      match lookupAnswer decisions did with
      | none => false
      | some cd =>
        if cd.selected_outcome == "" then false
        else
          match task.decision_outcome with
          | some dOut =>
            if (!(dOut == "")) && jsIncludesChar dOut ',' then
              ((jsSplit ',' dOut).map jsTrim).contains cd.selected_outcome
            else cd.selected_outcome == dOut
          | none => false

/-- `findLoopStart` (src/index.ts lines 203–207): the fixed loop-pairing
lookup table, with the identity fallback for unmapped ids. -/
def findLoopStart (loopEndId : String) : String :=
  if loopEndId == "DISP-L-002" then "DISP-L-001"
  else if loopEndId == "DISP-SL-006" then "DISP-SL-001"
  else loopEndId

/-- `findLoopBodyStart` (src/index.ts lines 210–213): the first task of the
filtered set whose `predecessors` list names the loop start. -/
def findLoopBodyStart (loopStartId : String) (tasks : List Task) :
    Option String :=
  (tasks.find? (fun t => t.predecessors.contains loopStartId)).map (·.id)

/-- The ids the BFS of `findClosestIncludedAncestor` pushes when it expands a
dequeued id (lines 193–196): the `predecessors` of the first task in
`allTasks` whose id matches (`allTasks.find`), or nothing when no task
matches. -/
def succs (allTasks : List Task) (id : String) : List String :=
  match allTasks.find? (fun t => t.id == id) with
  | some t => t.predecessors
  | none => []

/-- One step of the reverse-predecessor relation over the library, exactly as
the BFS follows it. -/
def stepRel (allTasks : List Task) (a b : String) : Prop :=
  b ∈ succs allTasks a

/-- Ids reachable from a seed list via the reflexive-transitive closure of
`stepRel`. -/
def reachableFrom (allTasks : List Task) (seeds : List String) (x : String) :
    Prop :=
  ∃ s ∈ seeds, Relation.ReflTransGen (stepRel allTasks) s x

/-- The `while` loop of `findClosestIncludedAncestor` (lines 183–197),
fuel-indexed.  `none` means the fuel ran out; `some r` means the loop
finished and the function returned `r`. -/
def bfsRun (allTasks : List Task) (includedTaskIds : List String) :
    List String → List String → Nat → Option (Option String)
  | _, _, 0 => none
  | visited, queue, fuel + 1 =>
    match queue with
    | [] => some none
    | currentId :: rest =>
      if visited.contains currentId then
        bfsRun allTasks includedTaskIds visited rest fuel
      else
        if includedTaskIds.contains currentId then some (some currentId)
        else
          bfsRun allTasks includedTaskIds (currentId :: visited)
            (rest ++ succs allTasks currentId) fuel

/-- Total size of the predecessor lists of the tasks not yet visited: the
potential used to bound the BFS running time. -/
def pendingSum (allTasks : List Task) (visited : List String) : Nat :=
  (allTasks.map
    (fun t => if t.id ∈ visited then 0 else t.predecessors.length)).sum

/-- Sufficient fuel for the BFS seeded with `seeds` over `allTasks`. -/
def fuelBound (allTasks : List Task) (seeds : List String) : Nat :=
  seeds.length + pendingSum allTasks [] + 1

/-- `findClosestIncludedAncestor` (src/index.ts lines 175–200), as the BFS
loop run with sufficient fuel. -/
def findClosestIncludedAncestor (task : Task) (allTasks : List Task)
    (includedTaskIds : List String) : Option String :=
  (bfsRun allTasks includedTaskIds [] task.predecessors
    (fuelBound allTasks task.predecessors)).join

/-- The Mermaid node id of a task id: every dash replaced by an
underscore (the global dash-to-underscore `replace` of line 260). -/
def sanitizeId (s : String) : String :=
  String.mk (s.data.map (fun c => if c == '-' then '_' else c))

/-- `\s+` run-collapsing step of `stage.replace(/\s+/g, '_')`: each maximal
whitespace run becomes a single `_`.  The flag records whether the previous
character was part of a whitespace run. -/
def collapseWsAux : Bool → List Char → List Char
  | _, [] => []
  | prevWs, c :: cs =>
    if c.isWhitespace then
      (if prevWs then [] else ['_']) ++ collapseWsAux true cs
    else c :: collapseWsAux false cs

/-- `stage.replace(/\s+/g, '_').replace(/&/g, 'and')` (line 256). -/
def stageIdOf (stage : String) : String :=
  String.mk ((collapseWsAux false stage.data).flatMap
    (fun c => if c == '&' then ['a', 'n', 'd'] else [c]))

/-- Case-insensitive character comparison, as the `i` regex flag compares. -/
def charCIEq (a b : Char) : Bool := a.toLower == b.toLower

/-- Whether `pat` is a case-insensitive prefix of the second list. -/
def ciIsPrefix : List Char → List Char → Bool
  | [], _ => true
  | _ :: _, [] => false
  | p :: ps, c :: cs => charCIEq p c && ciIsPrefix ps cs

/-- Global case-insensitive non-overlapping replacement, the semantics of
`String.prototype.replace` with a literal pattern and flags `gi`. -/
def ciReplaceAll (pat repl : List Char) : List Char → List Char
  | [] => []
  | c :: cs =>
    if h : pat ≠ [] ∧ ciIsPrefix pat (c :: cs) = true then
      repl ++ ciReplaceAll pat repl ((c :: cs).drop pat.length)
    else
      c :: ciReplaceAll pat repl cs
termination_by l => l.length
decreasing_by
  · simp only [List.length_drop, List.length_cons]
    have hp : 0 < pat.length := List.length_pos.mpr h.1
    omega
  · simp only [List.length_cons]
    omega

/-- `loop_exit_condition.replace(/RunningTotal >= Target/gi, 'Target not
reached')` (line 378). -/
def normalizeLoopCondition (s : String) : String :=
  String.mk (ciReplaceAll "RunningTotal >= Target".data
    "Target not reached".data s.data)

/-- The statements a compiled Mermaid diagram is made of, one constructor per
kind of line `generateMermaidDiagram` appends.  The diagram text is a
rendering of this list. -/
inductive Stmt where
  | header (text : String)
  | classDef (name style : String)
  | subgraphOpen (stageId stageName : String)
  | subgraphClose
  | nodeDecl (nodeId : String) (shape : Nat) (label : String)
  | classAssign (nodeId styleClass : String)
  | decisionNode (nodeId label : String)
  | edge (src dst : String) (dashed : Bool) (label : Option String)
deriving DecidableEq, Repr

/-- Node shape codes used by `Stmt.nodeDecl`: `0` = the double-bordered shape (Macro),
`1` = `((...))` (Loop-Start / Loop-End), `2` = `[...]` (Micro). -/
def shapeDoubled : Nat := 0

def shapeLoop : Nat := 1

def shapeRect : Nat := 2

/-- The fixed `classDef` preamble of `generateMermaidDiagram`
(lines 221–228). -/
def headerStmts : List Stmt :=
  [ Stmt.header "graph TD",
    Stmt.classDef "macroStyle" "fill:#e1f5ff,stroke:#0288d1,stroke-width:3px",
    Stmt.classDef "microStyle" "fill:#fff9e1,stroke:#fbc02d,stroke-width:2px",
    Stmt.classDef "loopStyle" "fill:#f3e5f5,stroke:#8e24aa,stroke-width:2px",
    Stmt.classDef "exceptionStyle"
      "fill:#ffebee,stroke:#d32f2f,stroke-width:2px,stroke-dasharray: 5 5",
    Stmt.classDef "decisionStyle"
      "fill:#fff3e0,stroke:#f57c00,stroke-width:2px" ]

/-- The fixed stage order of the node subgraphs (lines 245–251). -/
def stageOrder : List String :=
  [ "Pre-Dispensing", "Material Allocation", "Weighing & Dispensing",
    "Labeling & Documentation", "Post-Dispensing" ]

/-- Node and class statements for one task (lines 259–281). -/
def nodeStmtsFor (task : Task) : List Stmt :=
  let nodeId := sanitizeId task.id
  let label := task.id ++ ":<br/>" ++ task.name
  if task.type == "Macro" then
    [Stmt.nodeDecl nodeId shapeDoubled label, Stmt.classAssign nodeId "macroStyle"]
  else if task.type == "Loop-Start" || task.type == "Loop-End" then
    [Stmt.nodeDecl nodeId shapeLoop label, Stmt.classAssign nodeId "loopStyle"]
  else
    [Stmt.nodeDecl nodeId shapeRect label,
      Stmt.classAssign nodeId
        (if task.edge_type == "exception" then "exceptionStyle"
          else "microStyle")]

/-- One stage subgraph of the node section (lines 253–284): the tasks of the
stage in filtered order, wrapped in `subgraph`/`end`, skipped when empty. -/
def stageNodeStmts (filteredTasks : List Task) (stage : String) : List Stmt :=
  let group := filteredTasks.filter (fun t => t.stage == stage)
  if group.isEmpty then []
  else
    [Stmt.subgraphOpen (stageIdOf stage) stage]
      ++ group.flatMap nodeStmtsFor
      ++ [Stmt.subgraphClose]

/-- The special `DISP-017` routing block for
`Q-SEC-01 = "Both (material-dependent)"` (lines 292–313): statements. -/
def mermaidRouting (isBothPaths : Bool) (includedTaskIds : List String) :
    List Stmt :=
  if isBothPaths && includedTaskIds.contains "DISP-017" then
    [ Stmt.decisionNode "DEC_C_SEC_01" "Is container sealed?",
      Stmt.classAssign "DEC_C_SEC_01" "decisionStyle",
      Stmt.edge "DISP_017" "DEC_C_SEC_01" false none ]
    ++ (if includedTaskIds.contains "DISP-SL-001" then
          [Stmt.edge "DEC_C_SEC_01" "DISP_SL_001" false (some "Yes → Sealed")]
        else [])
    ++ (if includedTaskIds.contains "DISP-L-001" then
          [Stmt.edge "DEC_C_SEC_01" "DISP_L_001" false (some "No → Weighing")]
        else [])
  else []

/-- The `createdDecisionNodes` contents after the routing block (line 312). -/
def mermaidRoutingCreated (isBothPaths : Bool)
    (includedTaskIds : List String) : List String :=
  if isBothPaths && includedTaskIds.contains "DISP-017" then ["DEC_C_SEC_01"]
  else []

/-- Whether the task carries a runtime guard: `task.guard_condition &&
task.decision_id && task.decision_id.startsWith('C-')` (line 341). -/
def isRuntimeGuarded (task : Task) : Bool :=
  (!(task.guard_condition == "")) &&
    (match task.decision_id with
      | some d => (!(d == "")) && jsStartsWith d "C-"
      | none => false)

/-- Body of the inner `for (const pred of validPredecessors)` loop
(lines 337–368) for one predecessor: the updated `createdDecisionNodes` set
and the statements appended. -/
def predEdgeOne (task : Task) (created : List String) (pred : String) :
    List String × List Stmt :=
  let predId := sanitizeId pred
  let nodeId := sanitizeId task.id
  if isRuntimeGuarded task then
    let decisionNodeId := "DEC_" ++ sanitizeId task.id
    let conditionLabel :=
      if task.guard_condition.length > 40 then task.decision_id.getD ""
      else task.guard_condition
    let newStmts :=
      if created.contains decisionNodeId then []
      else
        [Stmt.decisionNode decisionNodeId conditionLabel,
          Stmt.classAssign decisionNodeId "decisionStyle",
          Stmt.edge predId decisionNodeId false none]
    let created' :=
      if created.contains decisionNodeId then created
      else decisionNodeId :: created
    let edgeLabel :=
      match task.decision_outcome with
      | some o => if o == "" then "Yes" else o
      | none => "Yes"
    let dashed := task.edge_type == "exception"
    (created',
      newStmts ++ [Stmt.edge decisionNodeId nodeId dashed (some edgeLabel)])
  else
    let dashed := task.edge_type == "exception"
    let label := if task.edge_type == "exception" then some "exception" else none
    (created, [Stmt.edge predId nodeId dashed label])

/-- The inner predecessor loop over the resolved predecessor list,
threading the `createdDecisionNodes` set and concatenating the emitted
statements in order. -/
def predEdgesGo (task : Task) : List String → List String →
    List String × List Stmt
  | created, [] => (created, [])
  | created, p :: ps =>
    let r := predEdgeOne task created p
    let rest := predEdgesGo task r.1 ps
    (rest.1, r.2 ++ rest.2)

/-- The loop back-edge of a `Loop-End` task (lines 372–382). -/
def loopBackStmts (filteredTasks : List Task) (task : Task) : List Stmt :=
  if task.type == "Loop-End" && (!(task.loop_exit_condition == "")) then
    let loopStartId := findLoopStart task.id
    match findLoopBodyStart loopStartId filteredTasks with
    | some bodyId =>
      [Stmt.edge (sanitizeId task.id) (sanitizeId bodyId) true
        (some (normalizeLoopCondition task.loop_exit_condition))]
    | none => []
  else []

/-- The resolved predecessor list of a task (lines 326–334): the declared
predecessors that are included, or — when none is — the single nearest
included ancestor, if any. -/
def resolvedPredecessors (task : Task) (includedTaskIds : List String)
    (allTasks : List Task) : List String :=
  let valid := task.predecessors.filter (fun p => includedTaskIds.contains p)
  if valid.isEmpty then
    match findClosestIncludedAncestor task allTasks includedTaskIds with
    | some a => [a]
    | none => []
  else valid

/-- Edge statements contributed by one task of the edge loop
(lines 316–383), including the `continue` that suppresses the two loop
entry tasks on the dual-path configuration (lines 320–322). -/
def taskEdgeStmts (isBothPaths : Bool) (includedTaskIds : List String)
    (allTasks filteredTasks : List Task) (created : List String)
    (task : Task) : List String × List Stmt :=
  if isBothPaths && (task.id == "DISP-L-001" || task.id == "DISP-SL-001") then
    (created, [])
  else
    let predPart :=
      if task.predecessors.length > 0 then
        predEdgesGo task created
          (resolvedPredecessors task includedTaskIds allTasks)
      else (created, [])
    (predPart.1, predPart.2 ++ loopBackStmts filteredTasks task)

/-- The whole edge loop `for (const task of filteredTasks)`
(lines 316–383), iterating over `iter` (which starts at `filteredTasks`),
threading the `createdDecisionNodes` set. -/
def edgeSectionGo (isBothPaths : Bool) (includedTaskIds : List String)
    (allTasks filteredTasks : List Task) :
    List String → List Task → List String × List Stmt
  | created, [] => (created, [])
  | created, t :: rest =>
    let r := taskEdgeStmts isBothPaths includedTaskIds allTasks filteredTasks
      created t
    let r2 := edgeSectionGo isBothPaths includedTaskIds allTasks filteredTasks
      r.1 rest
    (r2.1, r.2 ++ r2.2)

/-- The edge loop over the whole filtered task list. -/
def edgeSection (isBothPaths : Bool) (includedTaskIds : List String)
    (allTasks filteredTasks : List Task) (created0 : List String) :
    List String × List Stmt :=
  edgeSectionGo isBothPaths includedTaskIds allTasks filteredTasks created0
    filteredTasks

/-- `generateMermaidDiagram` (lines 216–386), emitting the statement list the
diagram text renders. -/
def generateMermaidDiagram (filteredTasks allTasks : List Task)
    (decisions : AnswerMap) : List Stmt :=
  let includedTaskIds := filteredTasks.map (fun t => t.id)
  let nodeStmts := stageOrder.flatMap (stageNodeStmts filteredTasks)
  let isBothPaths :=
    match lookupAnswer decisions "Q-SEC-01" with
    | some cd => cd.selected_outcome == "Both (material-dependent)"
    | none => false
  let routing := mermaidRouting isBothPaths includedTaskIds
  let created0 := mermaidRoutingCreated isBothPaths includedTaskIds
  let edges :=
    (edgeSection isBothPaths includedTaskIds allTasks filteredTasks created0).2
  headerStmts ++ nodeStmts ++ routing ++ edges

/-- The task filter shared by `generate_workflow` (lines 1057–1062) and
`validate_workflow` (lines 980–983): stage match plus inclusion filter. -/
def filteredTasksOf (allTasks : List Task) (decisions : AnswerMap)
    (stage : String) : List Task :=
  allTasks.filter
    (fun t => (stage == "All" || t.stage == stage) && shouldIncludeTask t decisions)

/-- Structural issues reported by `validate_workflow`, one constructor per
message template: `orphanWarning` for the `⚠️ ... has no valid predecessors`
warning, `ancestorInfo` for the `ℹ️ ... linked to distant ancestor` info
message, `loopWarning` for the `⚠️ ... loop end exists but ... loop start is
missing` warning. -/
inductive Issue where
  | orphanWarning (taskId name : String)
  | ancestorInfo (taskId ancestorId : String)
  | loopWarning (loopEndId loopStartId : String)
deriving DecidableEq, Repr

/-- The orphan check of `validate_workflow` (lines 988–1004): one issue per
task with predecessors none of which are included, in task order. -/
def orphanIssues (allTasks : List Task) (includedTaskIds : List String) :
    List Task → List Issue
  | [] => []
  | task :: rest =>
    (if task.predecessors.length > 0 then
      if task.predecessors.any (fun p => includedTaskIds.contains p) then []
      else
        match findClosestIncludedAncestor task allTasks includedTaskIds with
        | none => [Issue.orphanWarning task.id task.name]
        | some a => [Issue.ancestorInfo task.id a]
    else []) ++ orphanIssues allTasks includedTaskIds rest

/-- The loop-integrity check of `validate_workflow` (lines 1006–1013),
iterating over the `Loop-End` tasks of the filtered set. -/
def loopIssuesGo (includedTaskIds : List String) : List Task → List Issue
  | [] => []
  | loopEnd :: rest =>
    let loopStartId := findLoopStart loopEnd.id
    (if includedTaskIds.contains loopStartId then []
      else [Issue.loopWarning loopEnd.id loopStartId])
      ++ loopIssuesGo includedTaskIds rest

/-- The loop-integrity issues of the filtered task set. -/
def loopIssues (filteredTasks : List Task) (includedTaskIds : List String) :
    List Issue :=
  loopIssuesGo includedTaskIds
    (filteredTasks.filter (fun t => t.type == "Loop-End"))

/-- The `validate_workflow` tool handler (lines 972–1034): filter, then the
orphan check followed by the loop-integrity check.  The handler has no error
branch; it always answers with the (possibly empty) issue list. -/
def validate_workflow (allTasks : List Task) (decisions : AnswerMap)
    (stage : String) : List Issue :=
  let filteredTasks := filteredTasksOf allTasks decisions stage
  let includedTaskIds := filteredTasks.map (fun t => t.id)
  orphanIssues allTasks includedTaskIds filteredTasks
    ++ loopIssues filteredTasks includedTaskIds

/-- The gate of the `generate_workflow` handler (lines 1036–1065): it fails
only when the client's answer map has no keys at all; otherwise it compiles
the filtered tasks.  (The decorated diagram skin layered on top of
`generateMermaidDiagram` by `generateBeautifulMermaidDiagram` is
presentation-only and total, so the payload here is the filtered task set
with the compiled statement list.) -/
def generate_workflow (allTasks : List Task) (decisions : AnswerMap)
    (stage : String) : Except String (List Task × List Stmt) :=
  if decisions.isEmpty then
    Except.error
      "Cannot generate workflow: No decisions configured. Please answer decision questions first."
  else
    let filteredTasks := filteredTasksOf allTasks decisions stage
    Except.ok (filteredTasks, generateMermaidDiagram filteredTasks allTasks decisions)

/-- The `save_client_decision` tool handler (lines 805–862), in state-passing
form: the first component is the `client_decisions.json` store after the
call, the second the handler's answer (`Except.error` for an `isError`
response).  The timestamp `new Date().toISOString()` is the argument
`now`. -/
def save_client_decision (decisions : List Decision) (store : ClientStore)
    (client_name decision_id selected_outcome : String)
    (rationale : Option String) (now : String) :
    ClientStore × Except String String :=
  match decisions.find? (fun d => d.id == decision_id) with
  | none => (store, Except.error ("Error: Decision " ++ decision_id ++ " not found"))
  | some decision =>
    if !(decision.outcomes.contains selected_outcome) then
      (store, Except.error ("Error: Invalid outcome \"" ++ selected_outcome ++
        "\". Valid options are: " ++ String.intercalate ", " decision.outcomes))
    else
      let clientMap := (lookupEntry store client_name).getD []
      let clientMap' := setEntry clientMap decision_id
        { selected_outcome := selected_outcome,
          rationale := rationale.getD "",
          timestamp := now }
      (setEntry store client_name clientMap',
        Except.ok ("✅ Saved: " ++ decision_id ++ " = \"" ++ selected_outcome ++
          "\" for " ++ client_name))

/-- The answer stored for `client`/`did`, read back from the store. -/
def storedAnswer (store : ClientStore) (client did : String) :
    Option ClientDecision :=
  match lookupEntry store client with
  | some m => lookupEntry m did
  | none => none

/-- Bool test: is this a synthesized decision node with the given id? -/
def isDecisionNodeFor (id : String) : Stmt → Bool
  | Stmt.decisionNode i _ => i == id
  | _ => false

/-- Number of synthesized decision nodes with the given id. -/
def countDecisionNode (stmts : List Stmt) (id : String) : Nat :=
  (stmts.filter (isDecisionNodeFor id)).length

/-- Bool test: is this an edge statement out of `src`? -/
def isEdgeFrom (src : String) : Stmt → Bool
  | Stmt.edge a _ _ _ => a == src
  | _ => false

/-- The edge statements out of `src`, in emission order. -/
def edgesFrom (stmts : List Stmt) (src : String) : List Stmt :=
  stmts.filter (isEdgeFrom src)

/-- Bool test: is this issue a loop-integrity warning? -/
def isLoopWarning : Issue → Bool
  | Issue.loopWarning _ _ => true
  | _ => false

/-- The multi-outcome inclusion test as claim C2 words it: the client's
selected outcome, trimmed of surrounding whitespace, equals one of the
comma-separated candidates, each candidate itself trimmed.  Written from the
claim, not from the source, to be compared against `shouldIncludeTask`. -/
def claimC2SpecInclude (task : Task) (cd : ClientDecision) : Bool :=
  match task.decision_outcome with
  | some dOut =>
    ((jsSplit ',' dOut).map jsTrim).contains (jsTrim cd.selected_outcome)
  | none => false

/-- An all-defaults task record, the base for the concrete fixtures below. -/
def baseTask : Task :=
  { id := "", parent_id := none, name := "", type := "", stage := "",
    actor := "", integration := "", inputs := "", outputs := "",
    predecessors := [], edge_type := "", guard_condition := "",
    decision_id := none, decision_outcome := none, loop_key := "",
    loop_exit_condition := "", logs := "", controls := "" }

/-- Fixture: a runtime-condition task (decision id with the `C-` prefix). -/
def wTaskC1 : Task :=
  { baseTask with id := "DISP-E-01", decision_id := some "C-QC-01" }

/-- Fixture: a multi-outcome gated task for claim C2. -/
def cexTaskC2 : Task :=
  { baseTask with
    id := "DISP-100", decision_id := some "Q-X",
    decision_outcome := some "A, B" }

/-- Fixture: an answer whose selected outcome carries surrounding spaces. -/
def cexAnswerC2 : ClientDecision :=
  { selected_outcome := " A ", rationale := "",
    timestamp := "2024-01-01T00:00:00Z" }

/-- Fixture: the answer map holding `cexAnswerC2` under `Q-X`. -/
def cexAnswersC2 : AnswerMap := [("Q-X", cexAnswerC2)]

/-- Fixture: an answer selecting outcome `B`. -/
def wAnswerC2B : ClientDecision :=
  { selected_outcome := "B", rationale := "", timestamp := "t1" }

/-- Fixture: an answer map selecting outcome `B` for `Q-X`. -/
def wAnswersC2 : AnswerMap := [("Q-X", wAnswerC2B)]

/-- Fixture: a task gated by the (unanswered) decision `Q-Z`. -/
def wTaskC3 : Task :=
  { baseTask with
    id := "DISP-200", decision_id := some "Q-Z",
    decision_outcome := some "Yes" }

/-- Fixture: a nonempty answer map with no entry for `Q-Z`. -/
def wAnswersC3 : AnswerMap :=
  [("Q-Y", { selected_outcome := "SAP", rationale := "", timestamp := "t2" })]

/-- Fixture: a two-task library where the included ancestor sits two steps
back. -/
def wLibC4 : List Task :=
  [ { baseTask with id := "P1", predecessors := ["P2"] },
    { baseTask with id := "P2" } ]

/-- Fixture: a task whose sole predecessor is the excluded `P1`. -/
def wTaskC4 : Task := { baseTask with id := "T4", predecessors := ["P1"] }

/-- Fixture: a cyclic predecessor library (`A` and `B` point at each
other). -/
def wLibC5 : List Task :=
  [ { baseTask with id := "A", predecessors := ["B"] },
    { baseTask with id := "B", predecessors := ["A"] } ]

/-- Fixture: a task whose predecessor chain enters the `A`/`B` cycle. -/
def wTaskC5 : Task := { baseTask with id := "T5", predecessors := ["A"] }

/-- Fixture: the `Q-SEC-01` decision record with its three outcomes. -/
def wDecisionC7 : Decision :=
  { id := "Q-SEC-01", category := "Practice",
    question := "Are containers sealed?",
    outcomes := ["Sealed only", "Weighing only", "Both (material-dependent)"],
    stage := "Weighing & Dispensing", affects := "", notes := "" }

/-- Fixture: the junction task `DISP-017`. -/
def wTask17 : Task :=
  { baseTask with id := "DISP-017", stage := "Weighing & Dispensing" }

/-- Fixture: the sealed-path loop entry task. -/
def wTaskSL1 : Task :=
  { baseTask with
    id := "DISP-SL-001", stage := "Weighing & Dispensing",
    type := "Loop-Start", predecessors := ["DISP-017"] }

/-- Fixture: the weighing-path loop entry task. -/
def wTaskL1 : Task :=
  { baseTask with
    id := "DISP-L-001", stage := "Weighing & Dispensing",
    type := "Loop-Start", predecessors := ["DISP-017"] }

/-- Fixture: the dual-path scenario task set. -/
def wTasksC8 : List Task := [wTask17, wTaskSL1, wTaskL1]

/-- Fixture: the dual-path answer record. -/
def wAnswerC8 : ClientDecision :=
  { selected_outcome := "Both (material-dependent)", rationale := "",
    timestamp := "t3" }

/-- Fixture: the dual-path answer map (`Q-SEC-01 = Both
(material-dependent)`). -/
def wAnswersC8 : AnswerMap := [("Q-SEC-01", wAnswerC8)]

/-- Fixture: a task set with one orphaned loop end (`DISP-L-002`, whose
paired start is missing) and one complete loop pair. -/
def wTasksC9 : List Task :=
  [ { baseTask with
      id := "DISP-L-002", type := "Loop-End",
      stage := "Weighing & Dispensing" },
    { baseTask with
      id := "DISP-SL-006", type := "Loop-End",
      stage := "Weighing & Dispensing" },
    { baseTask with
      id := "DISP-SL-001", type := "Loop-Start",
      stage := "Weighing & Dispensing" } ]

theorem pendingSum_cons (t : Task) (ts : List Task) (visited : List String) :
    pendingSum (t :: ts) visited =
      (if t.id ∈ visited then 0 else t.predecessors.length) +
        pendingSum ts visited := by
  simp [pendingSum]

theorem pendingSum_elem_le (t : Task) (h : String) (visited : List String) :
    (if t.id ∈ h :: visited then 0 else t.predecessors.length) ≤
      (if t.id ∈ visited then 0 else t.predecessors.length) := by
  by_cases hv : t.id ∈ visited
  · simp [hv, List.mem_cons]
  · by_cases hh : t.id ∈ h :: visited <;> simp [hv, hh]

theorem pendingSum_mono (allTasks : List Task) (h : String)
    (visited : List String) :
    pendingSum allTasks (h :: visited) ≤ pendingSum allTasks visited := by
  induction allTasks with
  | nil => simp [pendingSum]
  | cons t ts ih =>
    rw [pendingSum_cons, pendingSum_cons]
    have := pendingSum_elem_le t h visited
    omega

theorem pendingSum_drop (allTasks : List Task) (t0 : Task) (h : String)
    (visited : List String) (hmem : t0 ∈ allTasks) (hid : t0.id = h)
    (hnv : h ∉ visited) :
    pendingSum allTasks (h :: visited) + t0.predecessors.length ≤
      pendingSum allTasks visited := by
  induction allTasks with
  | nil => simp at hmem
  | cons t ts ih =>
    rw [pendingSum_cons, pendingSum_cons]
    rcases List.mem_cons.mp hmem with heq | hmem'
    · subst heq
      have h1 : t0.id ∈ h :: visited := by simp [hid]
      have h2 : t0.id ∉ visited := by
        rw [hid]
        exact hnv
      simp only [h1, h2, if_pos, if_neg, if_true, if_false]
      have := pendingSum_mono ts h visited
      omega
    · have ihts := ih hmem'
      have := pendingSum_elem_le t h visited
      omega

theorem bfsRun_sufficient (allTasks : List Task) (included : List String) :
    ∀ (fuel : Nat) (visited queue : List String),
      queue.length + pendingSum allTasks visited < fuel →
      bfsRun allTasks included visited queue fuel ≠ none := by
  intro fuel
  induction fuel with
  | zero =>
    intro visited queue hlt
    omega
  | succ fuel ih =>
    intro visited queue hlt
    match queue with
    | [] => simp [bfsRun]
    | currentId :: rest =>
      rw [bfsRun]
      by_cases hv : visited.contains currentId = true
      · simp only [hv, if_pos, if_true]
        apply ih
        simp only [List.length_cons] at hlt
        omega
      · have hv' : visited.contains currentId = false := by simpa using hv
        have hnv : currentId ∉ visited := by simpa using hv'
        simp only [hv', Bool.false_eq_true, if_false]
        by_cases hi : included.contains currentId = true
        · have him : currentId ∈ included := by simpa using hi
          simp [him]
        · have hi' : included.contains currentId = false := by simpa using hi
          simp only [hi', Bool.false_eq_true, if_false]
          apply ih
          simp only [List.length_cons] at hlt
          cases hfind : allTasks.find? (fun t => t.id == currentId) with
          | some t0 =>
            have hmem := List.mem_of_find?_eq_some hfind
            have hid : t0.id = currentId := by
              simpa using List.find?_some hfind
            have hdrop :=
              pendingSum_drop allTasks t0 currentId visited hmem hid hnv
            have hsuccs : succs allTasks currentId = t0.predecessors := by
              simp [succs, hfind]
            rw [hsuccs, List.length_append]
            omega
          | none =>
            have hsuccs : succs allTasks currentId = [] := by
              simp [succs, hfind]
            have := pendingSum_mono allTasks currentId visited
            rw [hsuccs, List.length_append]
            simp only [List.length_nil]
            omega

theorem bfsRun_mono (allTasks : List Task) (included : List String) :
    ∀ (fuel : Nat) (visited queue : List String) (r : Option String),
      bfsRun allTasks included visited queue fuel = some r →
      ∀ fuel', fuel ≤ fuel' →
        bfsRun allTasks included visited queue fuel' = some r := by
  intro fuel
  induction fuel with
  | zero =>
    intro visited queue r heq
    simp [bfsRun] at heq
  | succ fuel ih =>
    intro visited queue r heq fuel' hle
    match fuel', hle with
    | fuel'' + 1, _ =>
      have hle' : fuel ≤ fuel'' := by omega
      match queue with
      | [] =>
        simp [bfsRun] at heq ⊢
        exact heq
      | currentId :: rest =>
        rw [bfsRun] at heq ⊢
        by_cases hv : visited.contains currentId = true
        · simp only [hv, if_pos, if_true] at heq ⊢
          exact ih _ _ _ heq _ hle'
        · have hv' : visited.contains currentId = false := by simpa using hv
          simp only [hv', Bool.false_eq_true, if_false] at heq ⊢
          by_cases hi : included.contains currentId = true
          · have him : currentId ∈ included := by simpa using hi
            simp [him] at heq ⊢
            exact heq
          · have hi' : included.contains currentId = false := by simpa using hi
            simp only [hi', Bool.false_eq_true, if_false] at heq ⊢
            exact ih _ _ _ heq _ hle'

/-- Invariant-carrying correctness of the BFS loop: if the loop finishes,
a `some` result is an included reachable id, and a `none` result certifies
that no reachable id is included. -/
theorem bfsRun_correct (allTasks : List Task) (included : List String)
    (seeds : List String) :
    ∀ (fuel : Nat) (visited queue : List String) (r : Option String),
      bfsRun allTasks included visited queue fuel = some r →
      (∀ x ∈ queue, reachableFrom allTasks seeds x) →
      (∀ x ∈ visited,
        reachableFrom allTasks seeds x ∧ included.contains x = false) →
      (∀ v ∈ visited, ∀ y, stepRel allTasks v y → y ∈ visited ∨ y ∈ queue) →
      (∀ s ∈ seeds, s ∈ visited ∨ s ∈ queue) →
      (match r with
        | some id => included.contains id = true ∧
            reachableFrom allTasks seeds id
        | none => ∀ x, reachableFrom allTasks seeds x →
            included.contains x = false) := by
  intro fuel
  induction fuel with
  | zero =>
    intro visited queue r heq
    simp [bfsRun] at heq
  | succ fuel ih =>
    intro visited queue r heq hQ hV hClosed hSeeds
    match queue with
    | [] =>
      simp [bfsRun] at heq
      subst heq
      intro x hx
      rcases hx with ⟨s, hs, hpath⟩
      have hsv : s ∈ visited := by
        rcases hSeeds s hs with h | h
        · exact h
        · simp at h
      have hxv : x ∈ visited := by
        clear hs
        induction hpath with
        | refl => exact hsv
        | tail hab hbc ihp =>
          rcases hClosed _ ihp _ hbc with h | h
          · exact h
          · simp at h
      exact (hV x hxv).2
    | currentId :: rest =>
      rw [bfsRun] at heq
      by_cases hv : visited.contains currentId = true
      · simp only [hv, if_pos, if_true] at heq
        have hvmem : currentId ∈ visited := by simpa using hv
        apply ih _ _ _ heq
        · intro x hx
          exact hQ x (List.mem_cons_of_mem _ hx)
        · exact hV
        · intro v hvv y hstep
          rcases hClosed v hvv y hstep with h | h
          · exact Or.inl h
          · rcases List.mem_cons.mp h with rfl | h'
            · exact Or.inl hvmem
            · exact Or.inr h'
        · intro s hs
          rcases hSeeds s hs with h | h
          · exact Or.inl h
          · rcases List.mem_cons.mp h with rfl | h'
            · exact Or.inl hvmem
            · exact Or.inr h'
      · have hv' : visited.contains currentId = false := by simpa using hv
        simp only [hv', Bool.false_eq_true, if_false] at heq
        by_cases hi : included.contains currentId = true
        · simp only [hi, if_pos, if_true, Option.some.injEq] at heq
          subst heq
          exact ⟨hi, hQ currentId (List.mem_cons_self _ _)⟩
        · have hi' : included.contains currentId = false := by simpa using hi
          simp only [hi', Bool.false_eq_true, if_false] at heq
          have hreachCur : reachableFrom allTasks seeds currentId :=
            hQ currentId (List.mem_cons_self _ _)
          apply ih _ _ _ heq
          · intro x hx
            rcases List.mem_append.mp hx with h | h
            · exact hQ x (List.mem_cons_of_mem _ h)
            · rcases hreachCur with ⟨s, hs, hpath⟩
              exact ⟨s, hs, Relation.ReflTransGen.tail hpath h⟩
          · intro x hx
            rcases List.mem_cons.mp hx with rfl | h'
            · exact ⟨hreachCur, hi'⟩
            · exact hV x h'
          · intro v hvv y hstep
            rcases List.mem_cons.mp hvv with rfl | h'
            · exact Or.inr (List.mem_append.mpr (Or.inr hstep))
            · rcases hClosed v h' y hstep with h | h
              · exact Or.inl (List.mem_cons_of_mem _ h)
              · rcases List.mem_cons.mp h with rfl | h''
                · exact Or.inl (List.mem_cons_self _ _)
                · exact Or.inr (List.mem_append.mpr (Or.inl h''))
          · intro s hs
            rcases hSeeds s hs with h | h
            · exact Or.inl (List.mem_cons_of_mem _ h)
            · rcases List.mem_cons.mp h with rfl | h'
              · exact Or.inl (List.mem_cons_self _ _)
              · exact Or.inr (List.mem_append.mpr (Or.inl h'))

/-- C1: for every task whose `decision_id` begins with the runtime-condition
prefix `C-`, and for every possible answers map, `shouldIncludeTask` returns
`true`; such tasks are never excluded regardless of client configuration. -/
theorem claim_C1 (task : Task) (answers : AnswerMap) (did : String)
    (h1 : task.decision_id = some did) (h2 : jsStartsWith did "C-" = true) :
    shouldIncludeTask task answers = true := by
  unfold shouldIncludeTask
  rw [h1]
  by_cases he : (did == "") = true
  · simp [he]
  · have he' : (did == "") = false := by simpa using he
    simp [he', h2]

/-- Witness for C1: the runtime-gated fixture task survives the empty answer
map. -/
theorem claim_C1_witness : shouldIncludeTask wTaskC1 [] = true :=
  claim_C1 wTaskC1 [] "C-QC-01" (by decide) (by decide)

/-- Counterexample to C2 as stated: for the answered multi-outcome task
`cexTaskC2` (`decision_outcome = "A, B"`), the client's selected outcome
`" A "` trimmed equals the candidate `"A"` — so the claim demands inclusion —
yet `shouldIncludeTask` excludes the task, because the code trims only the
candidates and compares the selected outcome untrimmed. -/
theorem claim_C2_counterexample :
    lookupAnswer cexAnswersC2 "Q-X" = some cexAnswerC2 ∧
    claimC2SpecInclude cexTaskC2 cexAnswerC2 = true ∧
    shouldIncludeTask cexTaskC2 cexAnswersC2 = false :=
  ⟨by decide, by decide, by decide⟩

/-- C2 (amended): for an answered multi-outcome task, `shouldIncludeTask`
returns `true` iff the client's selected outcome is nonempty and equals —
without trimming — one of the comma-separated candidates, each candidate
itself trimmed. -/
theorem claim_C2_amended (task : Task) (answers : AnswerMap)
    (did out : String) (cd : ClientDecision)
    (h1 : task.decision_id = some did) (h2 : did ≠ "")
    (h3 : jsStartsWith did "C-" = false)
    (h4 : lookupAnswer answers did = some cd)
    (h5 : task.decision_outcome = some out)
    (h6 : jsIncludesChar out ',' = true) :
    shouldIncludeTask task answers =
      ((!(cd.selected_outcome == "")) &&
        ((jsSplit ',' out).map jsTrim).contains cd.selected_outcome) := by
  have hd : (did == "") = false := by simpa using h2
  have hout : (out == "") = false := by
    by_cases ho : out = ""
    · subst ho
      simp [jsIncludesChar] at h6
    · simpa using ho
  unfold shouldIncludeTask
  rw [h1]
  simp only [hd, Bool.false_eq_true, if_false, h3, h4, h5, hout,
    Bool.not_false, Bool.true_and, h6, Bool.and_true, if_true]
  by_cases hsel : (cd.selected_outcome == "") = true
  · simp [hsel]
  · have hsel' : (cd.selected_outcome == "") = false := by simpa using hsel
    simp [hsel']

/-- Witness for the amended C2: with selected outcome `B` the task is
included, matching the untrimmed-membership right-hand side. -/
theorem claim_C2_amended_witness :
    shouldIncludeTask cexTaskC2 wAnswersC2 =
      ((!(wAnswerC2B.selected_outcome == "")) &&
        ((jsSplit ',' "A, B").map jsTrim).contains wAnswerC2B.selected_outcome) :=
  claim_C2_amended cexTaskC2 wAnswersC2 "Q-X" "A, B" wAnswerC2B (by decide)
    (by decide) (by decide) (by decide) (by decide) (by decide)

/-- C3: a task gated by a non-runtime decision with no entry in the answers
map is excluded (`shouldIncludeTask` returns `false`), and an unanswered
decision is a normal state, not an error: `generate_workflow` — the one
pipeline operation with an error branch at all — answers `ok` for every
nonempty answer map, whichever decisions are unanswered (`validate_workflow`
has no error branch and always returns its issue list).  The non-emptiness
`did ≠ ""` states that the task has a gating decision id: the code encodes
"no gating decision" as `null` or the (JS-falsy) empty string. -/
theorem claim_C3 :
    (∀ (task : Task) (answers : AnswerMap) (did : String),
      task.decision_id = some did → did ≠ "" →
      jsStartsWith did "C-" = false → lookupAnswer answers did = none →
      shouldIncludeTask task answers = false) ∧
    (∀ (allTasks : List Task) (answers : AnswerMap) (stage : String),
      answers ≠ [] →
      ∃ payload, generate_workflow allTasks answers stage = Except.ok payload) := by
  constructor
  · intro task answers did h1 h2 h3 h4
    have hd : (did == "") = false := by simpa using h2
    unfold shouldIncludeTask
    rw [h1]
    simp [hd, h3, h4]
  · intro allTasks answers stage hne
    have hempty : answers.isEmpty = false := by
      simpa [List.isEmpty_iff] using hne
    unfold generate_workflow
    rw [hempty]
    exact ⟨_, rfl⟩

/-- Witness for C3: the `Q-Z`-gated fixture is excluded under an answer map
that does not mention `Q-Z`, and `generate_workflow` still succeeds on that
(nonempty) answer map. -/
theorem claim_C3_witness :
    shouldIncludeTask wTaskC3 wAnswersC3 = false ∧
    ∃ payload, generate_workflow [] wAnswersC3 "All" = Except.ok payload :=
  ⟨claim_C3.1 wTaskC3 wAnswersC3 "Q-Z" (by decide) (by decide) (by decide)
    (by decide),
   claim_C3.2 [] wAnswersC3 "All" (by decide)⟩

/-- C6: `findLoopStart` is the fixed lookup table sending `DISP-L-002` to
`DISP-L-001` and `DISP-SL-006` to `DISP-SL-001`, and returns every other id
unchanged (the degenerate self-referencing fallback). -/
theorem claim_C6 :
    findLoopStart "DISP-L-002" = "DISP-L-001" ∧
    findLoopStart "DISP-SL-006" = "DISP-SL-001" ∧
    ∀ loopEndId, loopEndId ≠ "DISP-L-002" → loopEndId ≠ "DISP-SL-006" →
      findLoopStart loopEndId = loopEndId := by
  refine ⟨by decide, by decide, ?_⟩
  intro loopEndId h1 h2
  unfold findLoopStart
  simp [h1, h2]

/-- Witness for C6: an unmapped id falls back to itself. -/
theorem claim_C6_witness : findLoopStart "DISP-X-999" = "DISP-X-999" :=
  claim_C6.2.2 "DISP-X-999" (by decide) (by decide)

/-- The BFS run with the bound `fuelBound` always finishes. -/
theorem bfsRun_at_bound (task : Task) (allTasks : List Task)
    (included : List String) :
    ∃ r, bfsRun allTasks included [] task.predecessors
      (fuelBound allTasks task.predecessors) = some r := by
  have hlt : task.predecessors.length + pendingSum allTasks [] <
      fuelBound allTasks task.predecessors := by
    unfold fuelBound
    omega
  have hne := bfsRun_sufficient allTasks included _ [] task.predecessors hlt
  cases hres : bfsRun allTasks included [] task.predecessors
      (fuelBound allTasks task.predecessors) with
  | none => exact absurd hres hne
  | some r => exact ⟨r, rfl⟩

/-- The finished BFS result with a `some` value is an included reachable
id. -/
theorem bfsRun_some_spec (task : Task) (allTasks : List Task)
    (included : List String) (id : String)
    (hres : bfsRun allTasks included [] task.predecessors
      (fuelBound allTasks task.predecessors) = some (some id)) :
    included.contains id = true ∧
      reachableFrom allTasks task.predecessors id := by
  have h := bfsRun_correct allTasks included task.predecessors _ []
    task.predecessors (some id) hres
    (fun x hx => ⟨x, hx, Relation.ReflTransGen.refl⟩)
    (by intro x hx; simp at hx)
    (by intro v hv; simp at hv)
    (fun s hs => Or.inr hs)
  exact h

/-- The finished BFS result with a `none` value certifies that no reachable
id is included. -/
theorem bfsRun_none_spec (task : Task) (allTasks : List Task)
    (included : List String)
    (hres : bfsRun allTasks included [] task.predecessors
      (fuelBound allTasks task.predecessors) = some none) :
    ∀ x, reachableFrom allTasks task.predecessors x →
      included.contains x = false := by
  have h := bfsRun_correct allTasks included task.predecessors _ []
    task.predecessors none hres
    (fun x hx => ⟨x, hx, Relation.ReflTransGen.refl⟩)
    (by intro x hx; simp at hx)
    (by intro v hv; simp at hv)
    (fun s hs => Or.inr hs)
  exact h

/-- C4: `findClosestIncludedAncestor` returns either `null` or an id that is
a member of `includedTaskIds`, and it returns `null` exactly when no member
of `includedTaskIds` is reachable from `task.predecessors` via the
reflexive-transitive closure of the reverse-predecessor relation over the
library (the relation the BFS follows: first matching task by id, then its
`predecessors`). -/
theorem claim_C4 (task : Task) (allTasks : List Task)
    (includedTaskIds : List String) :
    (∀ id, findClosestIncludedAncestor task allTasks includedTaskIds = some id →
      id ∈ includedTaskIds) ∧
    (findClosestIncludedAncestor task allTasks includedTaskIds = none ↔
      ¬ ∃ x, reachableFrom allTasks task.predecessors x ∧ x ∈ includedTaskIds) := by
  obtain ⟨r, hres⟩ := bfsRun_at_bound task allTasks includedTaskIds
  have hf : findClosestIncludedAncestor task allTasks includedTaskIds = r := by
    unfold findClosestIncludedAncestor
    rw [hres]
    rfl
  cases r with
  | some id0 =>
    have hspec := bfsRun_some_spec task allTasks includedTaskIds id0 hres
    have hinc : id0 ∈ includedTaskIds := by simpa using hspec.1
    constructor
    · intro id hid
      rw [hf] at hid
      injection hid with hid
      subst hid
      exact hinc
    · constructor
      · intro hnone
        rw [hf] at hnone
        exact absurd hnone (by simp)
      · intro hno
        exact absurd ⟨id0, hspec.2, hinc⟩ hno
  | none =>
    have hspec := bfsRun_none_spec task allTasks includedTaskIds hres
    constructor
    · intro id hid
      rw [hf] at hid
      exact absurd hid (by simp)
    · constructor
      · intro _
        rintro ⟨x, hreach, hmem⟩
        have hx := hspec x hreach
        have hnot : x ∉ includedTaskIds := by simpa using hx
        exact hnot hmem
      · intro _
        exact hf

/-- Witness for C4: in the two-step fixture library, the resolver returns
`P2`, which is a member of the included set. -/
theorem claim_C4_witness : "P2" ∈ (["P2"] : List String) :=
  (claim_C4 wTaskC4 wLibC4 ["P2"]).1 "P2" (by decide)

/-- C5: the BFS of `findClosestIncludedAncestor` terminates on every input —
cyclic or redundant predecessor graphs included — within the `fuelBound`
iteration budget: any two fuels at or above the bound produce the same
finished result, namely the function's value. -/
theorem claim_C5 (task : Task) (allTasks : List Task)
    (included : List String) (fuel fuel' : Nat)
    (h : fuelBound allTasks task.predecessors ≤ fuel)
    (h' : fuelBound allTasks task.predecessors ≤ fuel') :
    bfsRun allTasks included [] task.predecessors fuel =
      some (findClosestIncludedAncestor task allTasks included) ∧
    bfsRun allTasks included [] task.predecessors fuel =
      bfsRun allTasks included [] task.predecessors fuel' := by
  obtain ⟨r, hres⟩ := bfsRun_at_bound task allTasks included
  have hfuel := bfsRun_mono allTasks included _ [] _ r hres fuel h
  have hfuel' := bfsRun_mono allTasks included _ [] _ r hres fuel' h'
  have hf : findClosestIncludedAncestor task allTasks included = r := by
    unfold findClosestIncludedAncestor
    rw [hres]
    rfl
  rw [hfuel, hfuel', hf]
  exact ⟨rfl, rfl⟩

/-- Witness for C5: on the cyclic `A`/`B` fixture library the BFS halts at
the fuel bound and is stable under extra fuel. -/
theorem claim_C5_witness :
    bfsRun wLibC5 [] [] wTaskC5.predecessors 4 =
      some (findClosestIncludedAncestor wTaskC5 wLibC5 []) ∧
    bfsRun wLibC5 [] [] wTaskC5.predecessors 4 =
      bfsRun wLibC5 [] [] wTaskC5.predecessors 11 :=
  claim_C5 wTaskC5 wLibC5 [] 4 11 (by decide) (by decide)

/-- Writing a key and reading it back yields the written value. -/
theorem lookupEntry_setEntry {α : Type} (m : List (String × α)) (k : String)
    (v : α) : lookupEntry (setEntry m k v) k = some v := by
  induction m with
  | nil => simp [setEntry, lookupEntry]
  | cons kv rest ih =>
    obtain ⟨k', v'⟩ := kv
    by_cases hk : (k' == k) = true
    · simp [setEntry, hk, lookupEntry]
    · have hk' : (k' == k) = false := by simpa using hk
      simp only [setEntry, hk', Bool.false_eq_true, if_false]
      simp only [lookupEntry, List.find?] at ih ⊢
      rw [hk']
      exact ih

/-- C7: `save_client_decision` fails with the not-found error when the
decision id is unknown to the decision library, fails with the
invalid-outcome error — whose message carries the full allowed outcome
set — when the outcome is not among the decision's outcomes, and otherwise
succeeds, storing the answer under the client and decision id. -/
theorem claim_C7 (decisions : List Decision) (store : ClientStore)
    (client did outcome : String) (rationale : Option String) (now : String) :
    (decisions.find? (fun d => d.id == did) = none →
      save_client_decision decisions store client did outcome rationale now =
        (store, Except.error ("Error: Decision " ++ did ++ " not found"))) ∧
    (∀ d, decisions.find? (fun d => d.id == did) = some d →
      d.outcomes.contains outcome = false →
      save_client_decision decisions store client did outcome rationale now =
        (store, Except.error ("Error: Invalid outcome \"" ++ outcome ++
          "\". Valid options are: " ++ String.intercalate ", " d.outcomes))) ∧
    (∀ d, decisions.find? (fun d => d.id == did) = some d →
      d.outcomes.contains outcome = true →
      (save_client_decision decisions store client did outcome rationale now).2 =
        Except.ok ("✅ Saved: " ++ did ++ " = \"" ++ outcome ++ "\" for " ++
          client) ∧
      storedAnswer
        (save_client_decision decisions store client did outcome rationale now).1
        client did =
        some { selected_outcome := outcome, rationale := rationale.getD "",
               timestamp := now }) := by
  refine ⟨?_, ?_, ?_⟩
  · intro hfind
    unfold save_client_decision
    rw [hfind]
  · intro d hfind hout
    have hmem : outcome ∉ d.outcomes := by simpa using hout
    unfold save_client_decision
    rw [hfind]
    simp [hmem]
  · intro d hfind hout
    unfold save_client_decision
    rw [hfind]
    simp only [hout, Bool.not_true, Bool.false_eq_true, if_false]
    refine ⟨trivial, ?_⟩
    unfold storedAnswer
    rw [lookupEntry_setEntry]
    exact lookupEntry_setEntry _ _ _

/-- Witness for C7: saving `Not-A-Real-Outcome` for `Q-SEC-01` fails listing
the decision's real outcomes (Scenario 5), and saving a real outcome stores
the answer. -/
theorem claim_C7_witness :
    save_client_decision [wDecisionC7] [] "Acme" "Q-SEC-01"
        "Not-A-Real-Outcome" none "t9" =
      ([], Except.error ("Error: Invalid outcome \"Not-A-Real-Outcome\". Valid options are: " ++
        String.intercalate ", " wDecisionC7.outcomes)) ∧
    storedAnswer
      (save_client_decision [wDecisionC7] [] "Acme" "Q-SEC-01" "Sealed only"
        none "t9").1 "Acme" "Q-SEC-01" =
      some { selected_outcome := "Sealed only", rationale := "",
             timestamp := "t9" } :=
  ⟨(claim_C7 [wDecisionC7] [] "Acme" "Q-SEC-01" "Not-A-Real-Outcome" none
      "t9").2.1 wDecisionC7 (by decide) (by decide),
   ((claim_C7 [wDecisionC7] [] "Acme" "Q-SEC-01" "Sealed only" none
      "t9").2.2 wDecisionC7 (by decide) (by decide)).2⟩

/-- C10: whenever `save_client_decision` fails — unknown decision id or an
outcome outside the decision's outcome list — the per-client answer store is
left completely unchanged: the error branches return before the store is
loaded or written. -/
theorem claim_C10 (decisions : List Decision) (store : ClientStore)
    (client did outcome : String) (rationale : Option String) (now : String)
    (e : String)
    (herr : (save_client_decision decisions store client did outcome rationale
      now).2 = Except.error e) :
    (save_client_decision decisions store client did outcome rationale
      now).1 = store := by
  unfold save_client_decision at herr ⊢
  cases hfind : decisions.find? (fun d => d.id == did) with
  | none => rfl
  | some d =>
    rw [hfind] at herr
    by_cases hc : d.outcomes.contains outcome = true
    · have hmem : outcome ∈ d.outcomes := by simpa using hc
      simp [hmem] at herr
    · have hmem : outcome ∉ d.outcomes := by simpa using hc
      simp [hmem]

/-- Witness for C10: a failing save (unknown decision id) leaves the store
exactly as it was. -/
theorem claim_C10_witness :
    (save_client_decision [wDecisionC7] [("Acme", wAnswersC3)] "Acme"
      "Q-NOPE" "Sealed only" none "t9").1 = [("Acme", wAnswersC3)] :=
  claim_C10 [wDecisionC7] [("Acme", wAnswersC3)] "Acme" "Q-NOPE"
    "Sealed only" none "t9" "Error: Decision Q-NOPE not found" rfl

/-- The loop-integrity pass emits exactly the warnings of the loop-end tasks
whose paired start is not included, in order. -/
theorem loopIssuesGo_eq (ids : List String) :
    ∀ l : List Task,
      loopIssuesGo ids l =
        (l.filter (fun t => !(ids.contains (findLoopStart t.id)))).map
          (fun t => Issue.loopWarning t.id (findLoopStart t.id)) := by
  intro l
  induction l with
  | nil => simp [loopIssuesGo]
  | cons t ts ih =>
    by_cases hc : ids.contains (findLoopStart t.id) = true
    · simp only [loopIssuesGo, hc, if_pos, if_true, List.nil_append,
        List.filter_cons]
      rw [ih]
      simp [hc]
    · have hc' : ids.contains (findLoopStart t.id) = false := by simpa using hc
      simp only [loopIssuesGo, hc', Bool.false_eq_true, if_false,
        List.filter_cons]
      rw [ih]
      simp [hc']

/-- The orphan pass never emits a loop-integrity warning. -/
theorem orphanIssues_no_loopWarning (allTasks : List Task)
    (ids : List String) :
    ∀ l : List Task, ∀ i ∈ orphanIssues allTasks ids l,
      isLoopWarning i = false := by
  intro l
  induction l with
  | nil => simp [orphanIssues]
  | cons t ts ih =>
    intro i hi
    simp only [orphanIssues] at hi
    rcases List.mem_append.mp hi with hhead | htail
    · by_cases hp : t.predecessors.length > 0
      · simp only [hp, if_pos, if_true] at hhead
        by_cases ha : t.predecessors.any (fun p => ids.contains p) = true
        · rcases List.any_eq_true.mp ha with ⟨p, hp2, hpc⟩
          have hpin : p ∈ ids := by simpa using hpc
          simp [ha] at hhead
          exact absurd hpin (hhead.1 p hp2)
        · have ha' : t.predecessors.any (fun p => ids.contains p) = false := by
            simpa using ha
          simp only [ha', Bool.false_eq_true, if_false] at hhead
          cases hanc : findClosestIncludedAncestor t allTasks ids with
          | none =>
            rw [hanc] at hhead
            simp at hhead
            subst hhead
            rfl
          | some a =>
            rw [hanc] at hhead
            simp at hhead
            subst hhead
            rfl
      · have hp' : ¬ t.predecessors.length > 0 := hp
        simp [hp'] at hhead
    · exact ih i htail

/-- C9: `validate_workflow` emits exactly one loop-integrity warning for each
included `Loop-End` task whose paired loop start (per `findLoopStart`) is not
in the included set — the warning list is precisely the ordered image of
those tasks — and emits no loop-integrity warning for an included `Loop-End`
whose paired start is included. -/
theorem claim_C9 (allTasks : List Task) (decisions : AnswerMap)
    (stage : String) :
    ((validate_workflow allTasks decisions stage).filter isLoopWarning =
      (((filteredTasksOf allTasks decisions stage).filter
          (fun t => t.type == "Loop-End")).filter
        (fun t =>
          !(((filteredTasksOf allTasks decisions stage).map (fun t => t.id)).contains
            (findLoopStart t.id)))).map
        (fun t => Issue.loopWarning t.id (findLoopStart t.id))) ∧
    (∀ t ∈ filteredTasksOf allTasks decisions stage, t.type = "Loop-End" →
      ((filteredTasksOf allTasks decisions stage).map (fun t => t.id)).contains
        (findLoopStart t.id) = true →
      ∀ s, Issue.loopWarning t.id s ∉
        validate_workflow allTasks decisions stage) := by
  have hval : validate_workflow allTasks decisions stage =
      orphanIssues allTasks
        ((filteredTasksOf allTasks decisions stage).map (fun t => t.id))
        (filteredTasksOf allTasks decisions stage)
      ++ loopIssuesGo
        ((filteredTasksOf allTasks decisions stage).map (fun t => t.id))
        ((filteredTasksOf allTasks decisions stage).filter
          (fun t => t.type == "Loop-End")) := by
    rfl
  constructor
  · rw [hval, List.filter_append]
    have h1 : (orphanIssues allTasks
        ((filteredTasksOf allTasks decisions stage).map (fun t => t.id))
        (filteredTasksOf allTasks decisions stage)).filter isLoopWarning =
        [] := by
      apply List.filter_eq_nil_iff.mpr
      intro i hi
      have := orphanIssues_no_loopWarning allTasks _ _ i hi
      simp [this]
    rw [h1, List.nil_append, loopIssuesGo_eq]
    apply List.filter_eq_self.mpr
    intro i hi
    rcases List.mem_map.mp hi with ⟨t, _, rfl⟩
    rfl
  · intro t ht htype hcont s hmem
    rw [hval] at hmem
    rcases List.mem_append.mp hmem with h | h
    · have := orphanIssues_no_loopWarning allTasks _ _ _ h
      simp [isLoopWarning] at this
    · rw [loopIssuesGo_eq] at h
      rcases List.mem_map.mp h with ⟨t', ht', heq⟩
      have hid : t'.id = t.id := by
        injection heq
      have ht'f := List.of_mem_filter ht'
      rw [hid] at ht'f
      rw [hcont] at ht'f
      simp at ht'f

/-- `countDecisionNode` adds over concatenation. -/
theorem countDecisionNode_append (a b : List Stmt) (x : String) :
    countDecisionNode (a ++ b) x =
      countDecisionNode a x + countDecisionNode b x := by
  simp [countDecisionNode, List.filter_append]

/-- `edgesFrom` distributes over concatenation. -/
theorem edgesFrom_append (a b : List Stmt) (x : String) :
    edgesFrom (a ++ b) x = edgesFrom a x ++ edgesFrom b x := by
  simp [edgesFrom, List.filter_append]

/-- A returned ancestor is always a member of the included set (the helper
form of the C4 guarantee, shared by the compiler lemmas). -/
theorem findClosestIncludedAncestor_mem (task : Task) (allTasks : List Task)
    (ids : List String) (id : String)
    (h : findClosestIncludedAncestor task allTasks ids = some id) :
    id ∈ ids := by
  obtain ⟨r, hres⟩ := bfsRun_at_bound task allTasks ids
  have hf : findClosestIncludedAncestor task allTasks ids = r := by
    unfold findClosestIncludedAncestor
    rw [hres]
    rfl
  rw [hf] at h
  subst h
  have hspec := bfsRun_some_spec task allTasks ids id hres
  simpa using hspec.1

/-- One predecessor step of the edge loop neither drops ids from the
memoization set nor re-emits a decision node whose id is already in it. -/
theorem predEdgeOne_preserves (t : Task) (created : List String)
    (p x : String) (hx : x ∈ created) :
    x ∈ (predEdgeOne t created p).1 ∧
      countDecisionNode (predEdgeOne t created p).2 x = 0 := by
  unfold predEdgeOne
  by_cases hrt : isRuntimeGuarded t = true
  · simp only [hrt, if_pos, if_true]
    by_cases hc : created.contains ("DEC_" ++ sanitizeId t.id) = true
    · simp only [hc, if_pos, if_true]
      exact ⟨hx, by simp [countDecisionNode, isDecisionNodeFor]⟩
    · have hc' : created.contains ("DEC_" ++ sanitizeId t.id) = false := by
        simpa using hc
      have hnmem : ("DEC_" ++ sanitizeId t.id) ∉ created := by simpa using hc'
      have hne : (("DEC_" ++ sanitizeId t.id) == x) = false := by
        have : ("DEC_" ++ sanitizeId t.id) ≠ x := fun he => hnmem (he ▸ hx)
        simpa using this
      simp only [hc', Bool.false_eq_true, if_false]
      refine ⟨List.mem_cons_of_mem _ hx, ?_⟩
      simp [countDecisionNode, isDecisionNodeFor, hne]
  · have hrt' : isRuntimeGuarded t = false := by simpa using hrt
    simp only [hrt', Bool.false_eq_true, if_false]
    exact ⟨hx, by simp [countDecisionNode, isDecisionNodeFor]⟩

/-- The predecessor loop preserves the memoization invariant. -/
theorem predEdgesGo_preserves (t : Task) :
    ∀ (ps : List String) (created : List String) (x : String), x ∈ created →
      x ∈ (predEdgesGo t created ps).1 ∧
        countDecisionNode (predEdgesGo t created ps).2 x = 0 := by
  intro ps
  induction ps with
  | nil =>
    intro created x hx
    exact ⟨hx, by simp [predEdgesGo, countDecisionNode]⟩
  | cons p ps ih =>
    intro created x hx
    have h1 := predEdgeOne_preserves t created p x hx
    have h2 := ih (predEdgeOne t created p).1 x h1.1
    refine ⟨h2.1, ?_⟩
    simp only [predEdgesGo]
    rw [countDecisionNode_append, h1.2, h2.2]

/-- Loop back-edges contain no synthesized decision node. -/
theorem loopBackStmts_no_decisionNode (fT : List Task) (t : Task)
    (x : String) : countDecisionNode (loopBackStmts fT t) x = 0 := by
  unfold loopBackStmts
  by_cases hc : (t.type == "Loop-End" && !(t.loop_exit_condition == "")) = true
  · simp only [hc, if_pos, if_true]
    cases findLoopBodyStart (findLoopStart t.id) fT with
    | none => simp [countDecisionNode]
    | some bodyId => simp [countDecisionNode, isDecisionNodeFor]
  · have hc' := eq_false_of_ne_true hc
    simp [hc', countDecisionNode]

/-- One task of the edge loop preserves the memoization invariant. -/
theorem taskEdgeStmts_preserves (isBoth : Bool) (ids : List String)
    (allT fT : List Task) (t : Task) (created : List String) (x : String)
    (hx : x ∈ created) :
    x ∈ (taskEdgeStmts isBoth ids allT fT created t).1 ∧
      countDecisionNode (taskEdgeStmts isBoth ids allT fT created t).2 x = 0 := by
  unfold taskEdgeStmts
  by_cases hskip :
      (isBoth && (t.id == "DISP-L-001" || t.id == "DISP-SL-001")) = true
  · simp only [hskip, if_pos, if_true]
    exact ⟨hx, by simp [countDecisionNode]⟩
  · have hskip' := eq_false_of_ne_true hskip
    simp only [hskip', Bool.false_eq_true, if_false]
    by_cases hp : t.predecessors.length > 0
    · simp only [hp, if_pos, if_true]
      have h1 := predEdgesGo_preserves t (resolvedPredecessors t ids allT)
        created x hx
      refine ⟨h1.1, ?_⟩
      rw [countDecisionNode_append, h1.2, loopBackStmts_no_decisionNode]
    · simp only [hp, if_false]
      refine ⟨hx, ?_⟩
      rw [countDecisionNode_append, loopBackStmts_no_decisionNode]
      simp [countDecisionNode]

/-- The whole edge loop emits no decision node whose id is already
memoized. -/
theorem edgeSectionGo_no_memoized (isBoth : Bool) (ids : List String)
    (allT fT : List Task) :
    ∀ (l : List Task) (created : List String) (x : String), x ∈ created →
      countDecisionNode (edgeSectionGo isBoth ids allT fT created l).2 x = 0 := by
  intro l
  induction l with
  | nil =>
    intro created x _
    simp [edgeSectionGo, countDecisionNode]
  | cons t rest ih =>
    intro created x hx
    have h1 := taskEdgeStmts_preserves isBoth ids allT fT t created x hx
    have h2 := ih _ x h1.1
    simp only [edgeSectionGo]
    rw [countDecisionNode_append, h1.2, h2]

/-- Every id of the resolved predecessor list is a member of the included
set. -/
theorem resolvedPredecessors_mem (task : Task) (ids : List String)
    (allT : List Task) (p : String)
    (h : p ∈ resolvedPredecessors task ids allT) : p ∈ ids := by
  unfold resolvedPredecessors at h
  by_cases hv : (task.predecessors.filter (fun p => ids.contains p)).isEmpty = true
  · simp only [hv, if_pos, if_true] at h
    cases hanc : findClosestIncludedAncestor task allT ids with
    | none =>
      rw [hanc] at h
      simp at h
    | some a =>
      rw [hanc] at h
      rw [List.mem_singleton] at h
      subst h
      exact findClosestIncludedAncestor_mem task allT ids _ hanc
  · have hv' := eq_false_of_ne_true hv
    simp only [hv', Bool.false_eq_true, if_false] at h
    have := List.of_mem_filter h
    simpa using this

/-- Sources of the edges emitted for one predecessor: the predecessor's node
id or the task's synthesized decision node id. -/
theorem predEdgeOne_edge_src (t : Task) (created : List String)
    (p : String) (a b : String) (d : Bool) (lab : Option String)
    (hmem : Stmt.edge a b d lab ∈ (predEdgeOne t created p).2) :
    a = sanitizeId p ∨ a = "DEC_" ++ sanitizeId t.id := by
  unfold predEdgeOne at hmem
  by_cases hrt : isRuntimeGuarded t = true
  · simp only [hrt, if_pos, if_true] at hmem
    by_cases hc : created.contains ("DEC_" ++ sanitizeId t.id) = true
    · simp only [hc, if_pos, if_true, List.nil_append,
        List.mem_singleton] at hmem
      injection hmem with h1 h2 h3 h4
      exact Or.inr h1
    · have hc' := eq_false_of_ne_true hc
      simp only [hc', Bool.false_eq_true, if_false, List.cons_append,
        List.nil_append, List.mem_cons, List.mem_singleton,
        List.not_mem_nil, or_false] at hmem
      rcases hmem with h | h | h | h
      · exact absurd h (by simp)
      · exact absurd h (by simp)
      · injection h with h1 h2 h3 h4
        exact Or.inl h1
      · injection h with h1 h2 h3 h4
        exact Or.inr h1
  · have hrt' := eq_false_of_ne_true hrt
    simp only [hrt', Bool.false_eq_true, if_false, List.mem_singleton] at hmem
    injection hmem with h1 h2 h3 h4
    exact Or.inl h1

/-- Sources of the edges emitted by the predecessor loop. -/
theorem predEdgesGo_edge_src (t : Task) :
    ∀ (ps created : List String) (a b : String) (d : Bool)
      (lab : Option String),
      Stmt.edge a b d lab ∈ (predEdgesGo t created ps).2 →
      (∃ p ∈ ps, a = sanitizeId p) ∨ a = "DEC_" ++ sanitizeId t.id := by
  intro ps
  induction ps with
  | nil =>
    intro created a b d lab hmem
    simp [predEdgesGo] at hmem
  | cons p ps ih =>
    intro created a b d lab hmem
    simp only [predEdgesGo] at hmem
    rcases List.mem_append.mp hmem with h | h
    · rcases predEdgeOne_edge_src t created p a b d lab h with h1 | h1
      · exact Or.inl ⟨p, List.mem_cons_self _ _, h1⟩
      · exact Or.inr h1
    · rcases ih _ a b d lab h with ⟨p', hp', ha⟩ | h1
      · exact Or.inl ⟨p', List.mem_cons_of_mem _ hp', ha⟩
      · exact Or.inr h1

/-- A loop back-edge is emitted from the loop-end task's own node id. -/
theorem loopBackStmts_edge_src (fT : List Task) (t : Task)
    (a b : String) (d : Bool) (lab : Option String)
    (hmem : Stmt.edge a b d lab ∈ loopBackStmts fT t) :
    a = sanitizeId t.id := by
  unfold loopBackStmts at hmem
  by_cases hc : (t.type == "Loop-End" && !(t.loop_exit_condition == "")) = true
  · simp only [hc, if_pos, if_true] at hmem
    cases hbody : findLoopBodyStart (findLoopStart t.id) fT with
    | none =>
      rw [hbody] at hmem
      simp at hmem
    | some bodyId =>
      rw [hbody] at hmem
      rw [List.mem_singleton, Stmt.edge.injEq] at hmem
      exact hmem.1
  · have hc' := eq_false_of_ne_true hc
    simp [hc'] at hmem

/-- Sources of the edges emitted for one task of the edge loop: an included
task's node id, the task's synthesized decision node id, or the task's own
node id (loop back-edge). -/
theorem taskEdgeStmts_edge_src (isBoth : Bool) (ids : List String)
    (allT fT : List Task) (t : Task) (created : List String)
    (a b : String) (d : Bool) (lab : Option String)
    (hmem : Stmt.edge a b d lab ∈ (taskEdgeStmts isBoth ids allT fT created t).2) :
    (∃ p ∈ ids, a = sanitizeId p) ∨ a = "DEC_" ++ sanitizeId t.id ∨
      a = sanitizeId t.id := by
  unfold taskEdgeStmts at hmem
  by_cases hskip :
      (isBoth && (t.id == "DISP-L-001" || t.id == "DISP-SL-001")) = true
  · simp only [hskip, if_pos, if_true] at hmem
    simp at hmem
  · have hskip' := eq_false_of_ne_true hskip
    simp only [hskip', Bool.false_eq_true, if_false] at hmem
    by_cases hp : t.predecessors.length > 0
    · simp only [hp, if_pos, if_true] at hmem
      rcases List.mem_append.mp hmem with h | h
      · rcases predEdgesGo_edge_src t _ created a b d lab h with ⟨p, hpv, ha⟩ | h1
        · exact Or.inl ⟨p, resolvedPredecessors_mem t ids allT p hpv, ha⟩
        · exact Or.inr (Or.inl h1)
      · exact Or.inr (Or.inr (loopBackStmts_edge_src fT t a b d lab h))
    · simp only [hp, if_false] at hmem
      rcases List.mem_append.mp hmem with h | h
      · simp at h
      · exact Or.inr (Or.inr (loopBackStmts_edge_src fT t a b d lab h))

/-- Sources of the edges emitted by the whole edge loop. -/
theorem edgeSectionGo_edge_src (isBoth : Bool) (ids : List String)
    (allT fT : List Task) :
    ∀ (l : List Task) (created : List String) (a b : String) (d : Bool)
      (lab : Option String),
      Stmt.edge a b d lab ∈ (edgeSectionGo isBoth ids allT fT created l).2 →
      ∃ t ∈ l, ((∃ p ∈ ids, a = sanitizeId p) ∨
        a = "DEC_" ++ sanitizeId t.id ∨ a = sanitizeId t.id) := by
  intro l
  induction l with
  | nil =>
    intro created a b d lab hmem
    simp [edgeSectionGo] at hmem
  | cons t rest ih =>
    intro created a b d lab hmem
    simp only [edgeSectionGo] at hmem
    rcases List.mem_append.mp hmem with h | h
    · exact ⟨t, List.mem_cons_self _ _,
        taskEdgeStmts_edge_src isBoth ids allT fT t created a b d lab h⟩
    · rcases ih _ a b d lab h with ⟨t', ht', hsrc⟩
      exact ⟨t', List.mem_cons_of_mem _ ht', hsrc⟩

/-- A statement count is zero when no statement matches. -/
theorem countDecisionNode_eq_zero_of (stmts : List Stmt) (x : String)
    (h : ∀ s ∈ stmts, isDecisionNodeFor x s = false) :
    countDecisionNode stmts x = 0 := by
  unfold countDecisionNode
  rw [List.length_eq_zero]
  apply List.filter_eq_nil_iff.mpr
  intro s hs
  simp [h s hs]

/-- `edgesFrom` is empty when no statement is an edge out of `src`. -/
theorem edgesFrom_eq_nil_of (stmts : List Stmt) (x : String)
    (h : ∀ s ∈ stmts, isEdgeFrom x s = false) :
    edgesFrom stmts x = [] := by
  apply List.filter_eq_nil_iff.mpr
  intro s hs
  simp [h s hs]

/-- Node statements are neither decision nodes nor edges. -/
theorem nodeStmtsFor_classes (t : Task) (x : String) :
    ∀ s ∈ nodeStmtsFor t,
      isDecisionNodeFor x s = false ∧ isEdgeFrom x s = false := by
  intro s hs
  unfold nodeStmtsFor at hs
  by_cases h1 : (t.type == "Macro") = true
  · simp only [h1, if_pos, if_true, List.mem_cons, List.mem_singleton,
      List.not_mem_nil, or_false] at hs
    rcases hs with rfl | rfl <;> exact ⟨rfl, rfl⟩
  · have h1' := eq_false_of_ne_true h1
    simp only [h1', Bool.false_eq_true, if_false] at hs
    by_cases h2 : (t.type == "Loop-Start" || t.type == "Loop-End") = true
    · simp only [h2, if_pos, if_true, List.mem_cons, List.mem_singleton,
        List.not_mem_nil, or_false] at hs
      rcases hs with rfl | rfl <;> exact ⟨rfl, rfl⟩
    · have h2' := eq_false_of_ne_true h2
      simp only [h2', Bool.false_eq_true, if_false, List.mem_cons,
        List.mem_singleton, List.not_mem_nil, or_false] at hs
      rcases hs with rfl | rfl <;> exact ⟨rfl, rfl⟩

/-- Statements of a stage subgraph are neither decision nodes nor edges. -/
theorem stageNodeStmts_classes (fT : List Task) (st : String) (x : String) :
    ∀ s ∈ stageNodeStmts fT st,
      isDecisionNodeFor x s = false ∧ isEdgeFrom x s = false := by
  intro s hs
  unfold stageNodeStmts at hs
  by_cases he : (fT.filter (fun t => t.stage == st)).isEmpty = true
  · simp only [he, if_pos, if_true] at hs
    simp at hs
  · have he' := eq_false_of_ne_true he
    simp only [he', Bool.false_eq_true, if_false] at hs
    rcases List.mem_append.mp hs with hs1 | hs2
    · rcases List.mem_append.mp hs1 with hs3 | hs4
      · rw [List.mem_singleton] at hs3
        subst hs3
        exact ⟨rfl, rfl⟩
      · rcases List.mem_flatMap.mp hs4 with ⟨t, _, hst⟩
        exact nodeStmtsFor_classes t x s hst
    · rw [List.mem_singleton] at hs2
      subst hs2
      exact ⟨rfl, rfl⟩

/-- Statements of the whole node section are neither decision nodes nor
edges. -/
theorem nodeSection_classes (fT : List Task) (x : String) :
    ∀ s ∈ stageOrder.flatMap (stageNodeStmts fT),
      isDecisionNodeFor x s = false ∧ isEdgeFrom x s = false := by
  intro s hs
  rcases List.mem_flatMap.mp hs with ⟨st, _, hst⟩
  exact stageNodeStmts_classes fT st x s hst

/-- C8: when the client's answer for `Q-SEC-01` is `Both
(material-dependent)` and `DISP-017` is included, the compiled statement
list contains exactly one synthesized routing-decision node
(`DEC_C_SEC_01`), an edge from `DISP-017`'s node into it, exactly one
labeled edge from it to each included loop entry (`DISP-SL-001`,
`DISP-L-001`) and no other edge out of it, and the per-task edge emission
for the two loop entry tasks contributes nothing (their default
predecessor edges are suppressed by the `continue`).  The `hclean`
hypothesis pins the scenario's id discipline: no included task's node id
collides with the synthesized `DEC_C_SEC_01` namespace. -/
theorem claim_C8 (filteredTasks allTasks : List Task) (decisions : AnswerMap)
    (cd : ClientDecision)
    (hq : lookupAnswer decisions "Q-SEC-01" = some cd)
    (hsel : cd.selected_outcome = "Both (material-dependent)")
    (h17 : "DISP-017" ∈ filteredTasks.map (fun t => t.id))
    (hSL : "DISP-SL-001" ∈ filteredTasks.map (fun t => t.id))
    (hL : "DISP-L-001" ∈ filteredTasks.map (fun t => t.id))
    (hclean : ∀ t ∈ filteredTasks, sanitizeId t.id ≠ "DEC_C_SEC_01" ∧
      "DEC_" ++ sanitizeId t.id ≠ "DEC_C_SEC_01") :
    countDecisionNode (generateMermaidDiagram filteredTasks allTasks decisions)
      "DEC_C_SEC_01" = 1 ∧
    Stmt.edge "DISP_017" "DEC_C_SEC_01" false none ∈
      generateMermaidDiagram filteredTasks allTasks decisions ∧
    edgesFrom (generateMermaidDiagram filteredTasks allTasks decisions)
      "DEC_C_SEC_01" =
      [Stmt.edge "DEC_C_SEC_01" "DISP_SL_001" false (some "Yes → Sealed"),
       Stmt.edge "DEC_C_SEC_01" "DISP_L_001" false (some "No → Weighing")] ∧
    (∀ (created : List String) (t : Task), t ∈ filteredTasks →
      (t.id = "DISP-L-001" ∨ t.id = "DISP-SL-001") →
      taskEdgeStmts true (filteredTasks.map (fun t => t.id)) allTasks
        filteredTasks created t = (created, [])) := by
  have hboth : (match lookupAnswer decisions "Q-SEC-01" with
      | some cd0 => cd0.selected_outcome == "Both (material-dependent)"
      | none => false) = true := by
    rw [hq]
    simp [hsel]
  have hids17 : ((filteredTasks.map (fun t => t.id)).contains "DISP-017") =
      true := by simpa using h17
  have hidsSL : ((filteredTasks.map (fun t => t.id)).contains "DISP-SL-001") =
      true := by simpa using hSL
  have hidsL : ((filteredTasks.map (fun t => t.id)).contains "DISP-L-001") =
      true := by simpa using hL
  have hrouting : mermaidRouting true (filteredTasks.map (fun t => t.id)) =
      [ Stmt.decisionNode "DEC_C_SEC_01" "Is container sealed?",
        Stmt.classAssign "DEC_C_SEC_01" "decisionStyle",
        Stmt.edge "DISP_017" "DEC_C_SEC_01" false none,
        Stmt.edge "DEC_C_SEC_01" "DISP_SL_001" false (some "Yes → Sealed"),
        Stmt.edge "DEC_C_SEC_01" "DISP_L_001" false (some "No → Weighing") ] := by
    unfold mermaidRouting
    rw [hids17, hidsSL, hidsL]
    simp
  have hcreated : mermaidRoutingCreated true (filteredTasks.map (fun t => t.id)) =
      ["DEC_C_SEC_01"] := by
    unfold mermaidRoutingCreated
    rw [hids17]
    simp
  have hout : generateMermaidDiagram filteredTasks allTasks decisions =
      headerStmts ++ (stageOrder.flatMap (stageNodeStmts filteredTasks)
        ++ (mermaidRouting true (filteredTasks.map (fun t => t.id))
          ++ (edgeSectionGo true (filteredTasks.map (fun t => t.id)) allTasks
              filteredTasks ["DEC_C_SEC_01"] filteredTasks).2)) := by
    unfold generateMermaidDiagram edgeSection
    rw [hboth]
    simp only [hcreated, List.append_assoc]
  have hedgesrc : ∀ (a b : String) (d : Bool) (lab : Option String),
      Stmt.edge a b d lab ∈
        (edgeSectionGo true (filteredTasks.map (fun t => t.id)) allTasks
          filteredTasks ["DEC_C_SEC_01"] filteredTasks).2 →
      a ≠ "DEC_C_SEC_01" := by
    intro a b d lab hmem
    rcases edgeSectionGo_edge_src true _ allTasks filteredTasks filteredTasks
      ["DEC_C_SEC_01"] a b d lab hmem with ⟨t, ht, hsrc⟩
    rcases hsrc with ⟨p, hp, ha⟩ | ha | ha
    · rcases List.mem_map.mp hp with ⟨t', ht', hid⟩
      subst ha
      rw [← hid]
      exact (hclean t' ht').1
    · subst ha
      exact (hclean t ht).2
    · subst ha
      exact (hclean t ht).1
  have hedgenil : ∀ s ∈ (edgeSectionGo true
        (filteredTasks.map (fun t => t.id)) allTasks filteredTasks
        ["DEC_C_SEC_01"] filteredTasks).2,
      isEdgeFrom "DEC_C_SEC_01" s = false := by
    intro s hs
    cases s with
    | edge a b d lab =>
      have := hedgesrc a b d lab hs
      simpa [isEdgeFrom] using this
    | header text => rfl
    | classDef n st => rfl
    | subgraphOpen a b => rfl
    | subgraphClose => rfl
    | nodeDecl n sh l => rfl
    | classAssign n c => rfl
    | decisionNode n l => rfl
  refine ⟨?_, ?_, ?_, ?_⟩
  · rw [hout, countDecisionNode_append, countDecisionNode_append,
      countDecisionNode_append, hrouting]
    have hh : countDecisionNode headerStmts "DEC_C_SEC_01" = 0 := by decide
    have hn : countDecisionNode
        (stageOrder.flatMap (stageNodeStmts filteredTasks)) "DEC_C_SEC_01" = 0 :=
      countDecisionNode_eq_zero_of _ _
        (fun s hs => (nodeSection_classes filteredTasks _ s hs).1)
    have hr : countDecisionNode
        [ Stmt.decisionNode "DEC_C_SEC_01" "Is container sealed?",
          Stmt.classAssign "DEC_C_SEC_01" "decisionStyle",
          Stmt.edge "DISP_017" "DEC_C_SEC_01" false none,
          Stmt.edge "DEC_C_SEC_01" "DISP_SL_001" false (some "Yes → Sealed"),
          Stmt.edge "DEC_C_SEC_01" "DISP_L_001" false (some "No → Weighing") ]
        "DEC_C_SEC_01" = 1 := by decide
    have he : countDecisionNode (edgeSectionGo true
        (filteredTasks.map (fun t => t.id)) allTasks filteredTasks
        ["DEC_C_SEC_01"] filteredTasks).2 "DEC_C_SEC_01" = 0 :=
      edgeSectionGo_no_memoized true _ allTasks filteredTasks filteredTasks
        ["DEC_C_SEC_01"] "DEC_C_SEC_01" (List.mem_singleton.mpr rfl)
    omega
  · rw [hout]
    apply List.mem_append.mpr
    refine Or.inr (List.mem_append.mpr (Or.inr (List.mem_append.mpr (Or.inl ?_))))
    rw [hrouting]
    decide
  · rw [hout, edgesFrom_append, edgesFrom_append, edgesFrom_append, hrouting]
    have hh : edgesFrom headerStmts "DEC_C_SEC_01" = [] := by decide
    have hn : edgesFrom (stageOrder.flatMap (stageNodeStmts filteredTasks))
        "DEC_C_SEC_01" = [] :=
      edgesFrom_eq_nil_of _ _
        (fun s hs => (nodeSection_classes filteredTasks _ s hs).2)
    have hr : edgesFrom
        [ Stmt.decisionNode "DEC_C_SEC_01" "Is container sealed?",
          Stmt.classAssign "DEC_C_SEC_01" "decisionStyle",
          Stmt.edge "DISP_017" "DEC_C_SEC_01" false none,
          Stmt.edge "DEC_C_SEC_01" "DISP_SL_001" false (some "Yes → Sealed"),
          Stmt.edge "DEC_C_SEC_01" "DISP_L_001" false (some "No → Weighing") ]
        "DEC_C_SEC_01" =
        [Stmt.edge "DEC_C_SEC_01" "DISP_SL_001" false (some "Yes → Sealed"),
         Stmt.edge "DEC_C_SEC_01" "DISP_L_001" false (some "No → Weighing")] := by
      decide
    have he : edgesFrom (edgeSectionGo true
        (filteredTasks.map (fun t => t.id)) allTasks filteredTasks
        ["DEC_C_SEC_01"] filteredTasks).2 "DEC_C_SEC_01" = [] :=
      edgesFrom_eq_nil_of _ _ hedgenil
    rw [hh, hn, hr, he]
    simp
  · intro created t ht hid
    unfold taskEdgeStmts
    rcases hid with h | h <;>
      · rw [h]
        simp

/-- Witness for C8: on the three-task dual-path fixture, the compiled
statement list holds exactly one `DEC_C_SEC_01` routing node. -/
theorem claim_C8_witness :
    countDecisionNode (generateMermaidDiagram wTasksC8 wTasksC8 wAnswersC8)
      "DEC_C_SEC_01" = 1 :=
  (claim_C8 wTasksC8 wTasksC8 wAnswersC8 wAnswerC8 (by decide) (by decide)
    (by decide) (by decide) (by decide) (by decide)).1

/-- Witness for C9: in the fixture set, the orphaned loop end `DISP-L-002`
yields exactly one loop warning, and the complete pair `DISP-SL-006` /
`DISP-SL-001` yields none. -/
theorem claim_C9_witness :
    (validate_workflow wTasksC9 [] "All").filter isLoopWarning =
      [Issue.loopWarning "DISP-L-002" "DISP-L-001"] ∧
    Issue.loopWarning "DISP-SL-006" "DISP-SL-001" ∉
      validate_workflow wTasksC9 [] "All" :=
  ⟨by rw [(claim_C9 wTasksC9 [] "All").1]; rfl,
   (claim_C9 wTasksC9 [] "All").2
     { baseTask with
       id := "DISP-SL-006", type := "Loop-End",
       stage := "Weighing & Dispensing" }
     (by decide) (by decide) (by decide) "DISP-SL-001"⟩

end MesWorkflow
